import Mathlib

/-!
Verification development for the uga-rmp-extension repository.

The extension has two cooperating pieces:
* the Resolver Service (`src/background.js`): resolves a professor name to
  Rate-My-Professors metrics via two GraphQL calls;
* the Harvester (`src/unnamed/part_002`, the current content script):
  scans instructor cells, normalizes names, deduplicates via `profMap`,
  drives resolution requests over a `chrome.runtime` port with
  reconnect/retry handling, and renders rating widgets.

The definitions below are a shallow embedding of that code.  Host
facilities (`fetch`, `atob`, the message port, the DOM) are modelled as
explicit inputs: a fetch outcome is an `Except Unit` value (`.error` for a
thrown network/parse exception), `atob` is a fallible decoding function
passed in, and the document is a list of cells.  JS numbers occurring in
metrics are modelled as `Int` (no claim exercises float arithmetic).
-/

namespace UGARMP

/-! ## Character classes of the JS regex `[\w-]`, `\s`, `[A-Z]`

`PRIMARY_PROFESSOR_REGEX = /([\w-]+)\s+(?:[A-Z]\.\s+)?([\w-]+)\s*\(Primary\)/`
(src/unnamed/part_002 line 8).  JS `\w` is `[A-Za-z0-9_]`. -/

def isWordDash (c : Char) : Bool :=
  (('a' ≤ c && c ≤ 'z') || ('A' ≤ c && c ≤ 'Z') ||
   ('0' ≤ c && c ≤ '9') || c = '_' || c = '-')

def isSpaceJS (c : Char) : Bool :=
  (c = ' ' || c = '\t' || c = '\n' || c = '\r' ||
   c = '\x0b' || c = '\x0c' || c = '\u00A0')

def isUpperAZ (c : Char) : Bool := 'A' ≤ c && c ≤ 'Z'

/-- The literal tail `\(Primary\)` of the regex. -/
def litPrimary : List Char := ['(', 'P', 'r', 'i', 'm', 'a', 'r', 'y', ')']

/-- Match `\s*\(Primary\)` at the head of `l`.  (The regex is unanchored at
the right, so trailing characters are ignored.) -/
def matchClose (l : List Char) : Bool :=
  litPrimary.isPrefixOf (l.dropWhile isSpaceJS)

/-- Match `([\w-]+)\s*\(Primary\)` at the head of `l`, returning the
capture group. -/
def matchNoOpt (l : List Char) : Option (List Char) :=
  if l.takeWhile isWordDash ≠ [] && matchClose (l.dropWhile isWordDash) then
    some (l.takeWhile isWordDash)
  else none

/-- Match `[A-Z]\.\s+([\w-]+)\s*\(Primary\)` at the head of `l` (the
optional middle-initial group taken, then the rest of the pattern). -/
def matchWithOpt (l : List Char) : Option (List Char) :=
  match l with
  | c :: d :: rest =>
    if isUpperAZ c && d = '.' then
      if (rest.takeWhile isSpaceJS) ≠ [] then matchNoOpt (rest.dropWhile isSpaceJS)
      else none
    else none
  | _ => none

/-- Match `(?:[A-Z]\.\s+)?([\w-]+)\s*\(Primary\)` at the head of `l`,
returning the second capture group.  The optional group is tried first
(greedy), falling back to the group-absent alternative, which is exactly
the JS backtracking order.  Greedy runs of `[\w-]+` and `\s+` need no
backtracking here because the adjacent character classes are disjoint. -/
def matchAfterSpaces (l : List Char) : Option (List Char) :=
  match matchWithOpt l with
  | some g2 => some g2
  | none => matchNoOpt l

/-- Match the full pattern at the head of `l`, returning the two capture
groups. -/
def matchAt (l : List Char) : Option (List Char × List Char) :=
  if l.takeWhile isWordDash = [] then none
  else if ((l.dropWhile isWordDash).takeWhile isSpaceJS) = [] then none
  else
    match matchAfterSpaces ((l.dropWhile isWordDash).dropWhile isSpaceJS) with
    | some g2 => some (l.takeWhile isWordDash, g2)
    | none => none

/-- JS `String.prototype.match` without the `g` flag: try the pattern at
each start position, leftmost first. -/
def findMatch : List Char → Option (List Char × List Char)
  | [] => none
  | c :: rest =>
    match matchAt (c :: rest) with
    | some r => some r
    | none => findMatch rest

/-- `normalizeProfessorName` (src/unnamed/part_002 lines 59-62):
`match ? `${match[1]} ${match[2]}` : name`. -/
def normalizeProfessorName (name : String) : String :=
  match findMatch name.data with
  | some (g1, g2) => String.mk (g1 ++ ' ' :: g2)
  | none => name

example : normalizeProfessorName "John A. Smith (Primary)" = "John Smith" := by decide
example : normalizeProfessorName "John Smith (Primary)" = "John Smith" := by decide
example : normalizeProfessorName "John Smith" = "John Smith" := by decide
example : normalizeProfessorName "Anne-Marie Del-Rio (Primary), Bob Lee" = "Anne-Marie Del-Rio" := by decide

/-! ## Resolver Service (src/background.js)

`fetch`+`response.json()` outcomes are modelled as `Except Unit` values:
`.error ()` is a thrown network or parse exception (caught by the
`try/catch` in the source), `.ok` carries the parsed payload after the
optional-chaining extraction.  A missing `edges` array behaves like an
empty one (`firstEdge` is `undefined` either way), and a missing metrics
`node` is `.ok none`. -/

namespace Background

/-- One `node` of the teacher-search response (the fields the code reads). -/
structure SearchNode where
  id : String
  firstName : String
  lastName : String
deriving DecidableEq

/-- The `node` of the metrics response, restricted to the fields
`getProfessorMetrics` extracts. -/
structure MetricsNode where
  avgDifficulty : Int
  avgRating : Int
  department : String
  numRatings : Int
  wouldTakeAgainPercent : Int
deriving DecidableEq

/-- The metrics object built by `getProfessorMetrics`, with the `RMPLink`
field that `getProfessorMetricsWithLink` later assigns (`none` models both
the initially-absent property and an assigned `null`). -/
structure Metrics where
  avgDifficulty : Int
  avgRating : Int
  department : String
  numRatings : Int
  wouldTakeAgainPercent : Int
  RMPLink : Option String
deriving DecidableEq

/-- `getProfessorID` (src/background.js lines 27-78) applied to the search
response: on a thrown error return `null`; otherwise take
`edges?.[0]` and return `node.id`, or `null` when there is no first edge. -/
def getProfessorID (resp : Except Unit (List SearchNode)) : Option String :=
  match resp with
  | .error _ => none
  | .ok edges =>
    match edges.head? with
    | some node => some node.id
    | none => none

/-- `getProfessorMetrics` (src/background.js lines 95-153) applied to the
metrics response: on a thrown error return `null`; otherwise extract the
five metric fields from `data?.data?.node` when present, else `null`. -/
def getProfessorMetrics (resp : Except Unit (Option MetricsNode)) : Option Metrics :=
  match resp with
  | .error _ => none
  | .ok none => none
  | .ok (some n) =>
    some ⟨n.avgDifficulty, n.avgRating, n.department, n.numRatings,
          n.wouldTakeAgainPercent, none⟩

/-- JS `String.prototype.replace` with a string pattern: replace the first
occurrence of `pat` with the empty string (used as
`decodedProfID.replace("Teacher-", "")`). -/
def stripFirst (pat : List Char) : List Char → List Char
  | [] => []
  | c :: cs =>
    if pat.isPrefixOf (c :: cs) then (c :: cs).drop pat.length
    else c :: stripFirst pat cs

/-- `getRMPProfessorLink` (src/background.js lines 162-172).  `atobF`
models the host `atob`: `none` when decoding throws, in which case the
`catch` returns `null`; otherwise the URL template is filled with the
decoded id after stripping the first `"Teacher-"`. -/
def getRMPProfessorLink (atobF : String → Option String) (professorID : String) :
    Option String :=
  match atobF professorID with
  | none => none
  | some decoded =>
    some ("https://www.ratemyprofessors.com/professor/"
          ++ String.mk (stripFirst "Teacher-".data decoded.data))

/-- `getProfessorMetricsWithLink` (src/background.js lines 187-195): fetch
metrics; when non-null, assign `metrics.RMPLink = getRMPProfessorLink(id)`. -/
def getProfessorMetricsWithLink (atobF : String → Option String)
    (professorID : String) (metricsResp : Except Unit (Option MetricsNode)) :
    Option Metrics :=
  match getProfessorMetrics metricsResp with
  | none => none
  | some m => some { m with RMPLink := getRMPProfessorLink atobF professorID }

/-- The remote/host environment the service worker runs against:
the search response for a queried name, the metrics response for a
professor id, and the host `atob`. -/
structure Env where
  search : String → Except Unit (List SearchNode)
  metricsOf : String → Except Unit (Option MetricsNode)
  atobF : String → Option String

/-- The `chrome.runtime.onConnect` message listener
(src/background.js lines 201-218).  The input is `msg.professorName`
(`none` = absent, and the empty string is falsy in JS, so both take the
`else` branch and post nothing).  The output is the posted message:
`none` = nothing posted, `some pm` = `postMessage({professorMetrics: pm})`
with `pm = none` modelling `null`. -/
def listenerRespond (env : Env) (professorName : Option String) :
    Option (Option Metrics) :=
  match professorName with
  | none => none
  | some name =>
    if name = "" then none
    else
      match getProfessorID (env.search name) with
      | none => some none
      | some profID =>
        some (getProfessorMetricsWithLink env.atobF profID (env.metricsOf profID))

end Background

/-- Split a character list into maximal runs of non-whitespace characters
(auxiliary: `cur` is the reversed current run). -/
def splitWSAux : List Char → List Char → List (List Char)
  | [], cur => if cur = [] then [] else [cur.reverse]
  | c :: rest, cur =>
    if c.isWhitespace then
      if cur = [] then splitWSAux rest []
      else cur.reverse :: splitWSAux rest []
    else splitWSAux rest (c :: cur)

/-- Split a character list into maximal runs of non-whitespace characters. -/
def splitWS (l : List Char) : List (List Char) := splitWSAux l []

/-- Modelled from the spec (§4.1 step 3), for stating claims C1/C2: the
queried name's two whitespace-split tokens exactly match a candidate's
first/last name.  No such check exists in the source. -/
def specNameMatches (query : String) (c : Background.SearchNode) : Bool :=
  match splitWS query.data with
  | [f, l] => c.firstName = String.mk f && c.lastName = String.mk l
  | _ => false

example : specNameMatches "John Smith" ⟨"id1", "John", "Smith"⟩ = true := by decide
example : specNameMatches "John Smith" ⟨"id1", "Jane", "Doe"⟩ = false := by decide

/-! ## Harvester (src/unnamed/part_002)

The content script's state is `profMap` plus the current port.  A call to
the content-side `getProfessorMetrics` is summarized by a `CallOutcome`:
the promise resolves with metrics, rejects with the generic failure error
(the service worker replied `{professorMetrics: null}`), or the `await`
rethrows one of the two recognized port exceptions.  Observable actions
(issued requests, port re-creations, page reloads) are recorded as
events. -/

/-- JS `String.prototype.trim` (drop leading/trailing whitespace). -/
def jsTrim (s : String) : String :=
  String.mk (((s.data.dropWhile isSpaceJS).reverse.dropWhile isSpaceJS).reverse)

/-- Outcome of one awaited `getProfessorMetrics(name)` call, as seen by
`processProfessorTables`' `try/catch`. -/
inductive CallOutcome where
  | success (m : Background.Metrics)
  | failure
  | ctxInvalid
  | portDisc
deriving DecidableEq

/-- Observable actions of the Harvester. -/
inductive Ev where
  | request (name : String)
  | reconnect
  | reload
deriving DecidableEq

/-- `profMap`: a JS `Map` from normalized name to metrics-or-`null`. -/
abbrev PMap := List (String × Option Background.Metrics)

/-- `profMap.get(n)`: `none` models JS `undefined` (no entry). -/
def lookupPM : PMap → String → Option (Option Background.Metrics)
  | [], _ => none
  | (k, v) :: rest, n => if k = n then some v else lookupPM rest n

/-- `profMap.has(n)`. -/
def hasPM (pm : PMap) (n : String) : Bool := (lookupPM pm n).isSome

/-- `profMap.set(n, v)`: update in place if the key exists, else append. -/
def setPM : PMap → String → Option Background.Metrics → PMap
  | [], n, v => [(n, v)]
  | (k, w) :: rest, n, v =>
    if k = n then (k, v) :: rest else (k, w) :: setPM rest n v

/-- Result of the per-element loop of `processProfessorTables`: ran to the
end of the list, halted with a page reload (context invalidated), or threw
a disconnected-port error up to the retry logic. -/
inductive InnerRes where
  | done (pm : PMap) (evs : List Ev)
  | halted (pm : PMap) (evs : List Ev)
  | disc (pm : PMap) (evs : List Ev)
deriving DecidableEq

/-- Prepend an event to an `InnerRes`'s event log. -/
def InnerRes.consEv (e : Ev) : InnerRes → InnerRes
  | .done pm evs => .done pm (e :: evs)
  | .halted pm evs => .halted pm (e :: evs)
  | .disc pm evs => .disc pm (e :: evs)

/-- The `for (const element of tables)` body of `processProfessorTables`
(src/unnamed/part_002 lines 72-113): trim, skip blanks, normalize, skip
cached names, otherwise issue the request and handle its outcome.  On
`ctxInvalid` the page is reloaded and the function returns; on `portDisc`
control returns to the retry logic (`processTables`). -/
def innerLoop (env : String → CallOutcome) : List String → PMap → InnerRes
  | [], pm => .done pm []
  | t :: ts, pm =>
    let n0 := jsTrim t
    if n0 = "" then innerLoop env ts pm
    else
      let n := normalizeProfessorName n0
      if hasPM pm n then innerLoop env ts pm
      else
        match env n with
        | .success m => (innerLoop env ts (setPM pm n (some m))).consEv (.request n)
        | .failure => (innerLoop env ts (setPM pm n none)).consEv (.request n)
        | .ctxInvalid => .halted pm [.request n, .reload]
        | .portDisc => .disc pm [.request n]

/-- `MAX_RETRIES` (src/unnamed/part_002 line 5). -/
def MAX_RETRIES : Nat := 3

/-- `processProfessorTables(tables, retryCount)` (src/unnamed/part_002
lines 72-113).  On a disconnected-port error: if `retryCount >=
MAX_RETRIES`, reload the page; otherwise recreate the port
(`Ev.reconnect`) and recurse on the same `tables` with `retryCount + 1`.
Returns the final `profMap`, the event log, and whether a reload was
triggered. -/
def processTables (env : String → CallOutcome) (tables : List String)
    (retryCount : Nat) (pm : PMap) : PMap × List Ev × Bool :=
  match innerLoop env tables pm with
  | .done pm2 evs => (pm2, evs, false)
  | .halted pm2 evs => (pm2, evs, true)
  | .disc pm2 evs =>
    if MAX_RETRIES ≤ retryCount then (pm2, evs ++ [Ev.reload], true)
    else
      let r := processTables env tables (retryCount + 1) pm2
      (r.1, evs ++ Ev.reconnect :: r.2.1, r.2.2)
termination_by MAX_RETRIES + 1 - retryCount
decreasing_by simp only [MAX_RETRIES] at *; omega

/-- A session: a sequence of mutation-triggered scans, each running
`processProfessorTables` (retry count 0) over that scan's cell texts,
carrying `profMap` forward.  Event logs are concatenated. -/
def runScans (env : String → CallOutcome) : List (List String) → PMap → PMap × List Ev
  | [], pm => (pm, [])
  | ts :: rest, pm =>
    let r := processTables env ts 0 pm
    let r2 := runScans env rest r.1
    (r2.1, r.2.1 ++ r2.2)

/-- How the content script's `messageListener` (src/unnamed/part_002 lines
36-44) turns the service worker's reply into a call outcome: a truthy
`professorMetrics` resolves the promise; `null` is falsy, so the promise
rejects with the generic failure error, which `processProfessorTables`
catches and records as a `null` cache entry.  No reply at all would stall
the `await`; the Harvester only sends nonempty names, for which the
listener always replies, so that case is mapped to `.failure` vacuously. -/
def channelOutcome (resp : Option (Option Background.Metrics)) : CallOutcome :=
  match resp with
  | some (some m) => .success m
  | some none => .failure
  | none => .failure

/-- The Harvester's call environment induced by the Resolver Service
listener over the Channel. -/
def envOfListener (env : Background.Env) : String → CallOutcome :=
  fun n => channelOutcome (Background.listenerRespond env (some n))

/-! ## Rendering (src/unnamed/part_002 lines 122-213)

A cell is its text plus the list of `div` children in document order;
`cell.querySelector('div')?.remove()` removes the first, `append` adds at
the end.  `createRatingElement` receives `profMap.get(name)`: a missing
entry is JS `undefined`, which fails the `=== null` test and then throws
on the first property access — modelled as `Except.error`. -/

/-- A child node of the rating `div`. -/
inductive DomNode where
  | span (text : String)
  | br
  | anchor (href : Option String) (text : String)
deriving DecidableEq

/-- A rating widget: the children of the created `div`. -/
abbrev Widget := List DomNode

/-- An instructor cell: the text contributed by the page itself and the
rating `div` children appended after it.  The DOM's `textContent` is the
page text followed by the widgets' text (see `cellText`). -/
structure Cell where
  text : String
  widgets : List Widget
deriving DecidableEq

/-- `textContent` of one widget child (`<br>` contributes nothing). -/
def DomNode.textOf : DomNode → String
  | .span t => t
  | .br => ""
  | .anchor _ t => t

/-- `textContent` of a widget (its children's text in order). -/
def widgetText : Widget → String
  | [] => ""
  | n :: ns => n.textOf ++ widgetText ns

/-- `textContent` of a list of appended widgets. -/
def widgetsText : List Widget → String
  | [] => ""
  | w :: ws => widgetText w ++ widgetsText ws

/-- `cell.textContent`: the page's own text followed by the text of every
appended rating widget, in document order. -/
def cellText (c : Cell) : String := c.text ++ widgetsText c.widgets

/-- `createRatingElement(metrics)` (src/unnamed/part_002 lines 139-178)
for a defined argument (`null` or a metrics object).  `Math.round` on the
`Int`-modelled percentage is the identity. -/
def createRatingElement (metrics : Option Background.Metrics) : Widget :=
  match metrics with
  | none => [DomNode.span "No page found."]
  | some m =>
    [DomNode.span ("Overall: " ++ toString m.avgRating ++ " / 5"), DomNode.br,
     DomNode.span ("Difficulty: " ++ toString m.avgDifficulty ++ " / 5"), DomNode.br,
     DomNode.span ("Total Ratings: " ++ toString m.numRatings), DomNode.br,
     (if m.wouldTakeAgainPercent = -1 then DomNode.span "No ratings available yet."
      else DomNode.span ("Would take again: " ++ toString m.wouldTakeAgainPercent ++ "%")),
     DomNode.br,
     DomNode.anchor m.RMPLink "View on RMP Â»"]

/-- One iteration of `updateProfessorRatings`' loop (src/unnamed/part_002
lines 196-212) on one cell: compute the name from `cell.textContent`
(which includes any previously appended widget's text — the read happens
before the removal), remove the first existing `div`, skip empty names,
then build and insert the widget for `profMap.get(name)` — `.error ()`
models the `TypeError` thrown by `createRatingElement` when the name has
no cache entry (`undefined`). -/
def renderCellE (pm : PMap) (c : Cell) : Except Unit Cell :=
  let name := normalizeProfessorName (jsTrim (cellText c))
  let ws := c.widgets.tail
  if name = "" then .ok ⟨c.text, ws⟩
  else
    match lookupPM pm name with
    | none => .error ()
    | some v => .ok ⟨c.text, ws ++ [createRatingElement v]⟩

/-- `updateProfessorRatings()` over the whole document, faithful to the
`for` loop: a thrown `TypeError` aborts the pass. -/
def renderPassE (pm : PMap) : List Cell → Except Unit (List Cell)
  | [] => .ok []
  | c :: cs =>
    match renderCellE pm c with
    | .error e => .error e
    | .ok c2 =>
      match renderPassE pm cs with
      | .error e => .error e
      | .ok rest => .ok (c2 :: rest)

/-- Projection: the `profMap` carried by an `InnerRes`. -/
def InnerRes.pmOf : InnerRes → PMap
  | .done pm _ => pm
  | .halted pm _ => pm
  | .disc pm _ => pm

/-- Projection: the event log carried by an `InnerRes`. -/
def InnerRes.evsOf : InnerRes → List Ev
  | .done _ evs => evs
  | .halted _ evs => evs
  | .disc _ evs => evs

/-- A cell text that makes `processProfessorTables` issue a resolution
request: nonblank, and its normalized name not yet cached. -/
def requestable (pm : PMap) (t : String) : Prop :=
  jsTrim t ≠ "" ∧ hasPM pm (normalizeProfessorName (jsTrim t)) = false

/-- Environment refuting C1: the search returns one candidate whose name
does not match the queried name's tokens, and that candidate's metrics
fetch succeeds. -/
def cexEnvC1 : Background.Env :=
  ⟨fun _ => .ok [⟨"id1", "Jane", "Doe"⟩],
   fun _ => .ok (some ⟨2, 4, "Mathematics", 7, 90⟩),
   fun _ => some "Teacher-42"⟩

/-- Environment refuting C2: two candidates with identical first/last
names; both metrics fetches succeed, with rating counts 5 and 40. -/
def cexEnvC2 : Background.Env :=
  ⟨fun _ => .ok [⟨"id1", "John", "Smith"⟩, ⟨"id2", "John", "Smith"⟩],
   fun pid => if pid = "id1" then .ok (some ⟨3, 4, "Mathematics", 5, 80⟩)
              else .ok (some ⟨1, 5, "Statistics", 40, 95⟩),
   fun _ => none⟩

/-! ## Lemmas about the name-normalization regex -/

theorem matchClose_paren {l : List Char} (h : matchClose l = true) : '(' ∈ l := by
  unfold matchClose at h
  have hp := List.isPrefixOf_iff_prefix.mp h
  have hmem : '(' ∈ l.dropWhile isSpaceJS := hp.subset (by simp [litPrimary])
  exact (List.dropWhile_sublist _).subset hmem

theorem matchNoOpt_spec {l g2 : List Char} (h : matchNoOpt l = some g2) :
    (∀ c ∈ g2, isWordDash c = true) ∧ '(' ∈ l := by
  unfold matchNoOpt at h
  split at h
  case isTrue hc =>
    simp only [Bool.and_eq_true, decide_eq_true_eq] at hc
    injection h with h
    subst h
    refine ⟨fun c hc => List.mem_takeWhile_imp hc, ?_⟩
    exact (List.dropWhile_sublist _).subset (matchClose_paren hc.2)
  case isFalse => exact absurd h (by simp)

theorem matchWithOpt_spec {l g2 : List Char} (h : matchWithOpt l = some g2) :
    (∀ c ∈ g2, isWordDash c = true) ∧ '(' ∈ l := by
  unfold matchWithOpt at h
  rcases l with _ | ⟨c, _ | ⟨d, rest⟩⟩
  · exact absurd h (by simp)
  · exact absurd h (by simp)
  · simp only at h
    split at h
    case isTrue =>
      split at h
      case isTrue =>
        obtain ⟨hg, hp⟩ := matchNoOpt_spec h
        refine ⟨hg, ?_⟩
        have hr : '(' ∈ rest := (List.dropWhile_sublist _).subset hp
        exact List.mem_cons_of_mem _ (List.mem_cons_of_mem _ hr)
      case isFalse => exact absurd h (by simp)
    case isFalse => exact absurd h (by simp)

theorem matchAfterSpaces_spec {l g2 : List Char} (h : matchAfterSpaces l = some g2) :
    (∀ c ∈ g2, isWordDash c = true) ∧ '(' ∈ l := by
  unfold matchAfterSpaces at h
  split at h
  · next heq => injection h with h; subst h; exact matchWithOpt_spec heq
  · exact matchNoOpt_spec h

theorem matchAt_spec {l g1 g2 : List Char} (h : matchAt l = some (g1, g2)) :
    (∀ c ∈ g1, isWordDash c = true) ∧ (∀ c ∈ g2, isWordDash c = true) ∧ '(' ∈ l := by
  unfold matchAt at h
  split at h
  case isTrue => exact absurd h (by simp)
  case isFalse =>
    split at h
    case isTrue => exact absurd h (by simp)
    case isFalse =>
      split at h
      · next heq =>
        injection h with h
        injection h with h1 h2
        subst h1; subst h2
        obtain ⟨hg2, hp⟩ := matchAfterSpaces_spec heq
        refine ⟨fun c hc => List.mem_takeWhile_imp hc, hg2, ?_⟩
        exact (List.dropWhile_sublist _).subset ((List.dropWhile_sublist _).subset hp)
      · exact absurd h (by simp)

theorem findMatch_spec {l g1 g2 : List Char} (h : findMatch l = some (g1, g2)) :
    (∀ c ∈ g1, isWordDash c = true) ∧ (∀ c ∈ g2, isWordDash c = true) ∧ '(' ∈ l := by
  induction l with
  | nil => exact absurd h (by simp [findMatch])
  | cons c rest ih =>
    rw [findMatch] at h
    split at h
    · next heq =>
      injection h with h; subst h
      exact matchAt_spec heq
    · obtain ⟨h1, h2, h3⟩ := ih h
      exact ⟨h1, h2, List.mem_cons_of_mem _ h3⟩

theorem findMatch_eq_none {l : List Char} (h : '(' ∉ l) : findMatch l = none := by
  cases hf : findMatch l with
  | none => rfl
  | some r =>
    obtain ⟨g1, g2⟩ := r
    exact absurd (findMatch_spec hf).2.2 h

theorem normalize_of_none {x : String} (h : findMatch x.data = none) :
    normalizeProfessorName x = x := by
  simp [normalizeProfessorName, h]

theorem normalize_of_some {x : String} {g1 g2 : List Char}
    (h : findMatch x.data = some (g1, g2)) :
    normalizeProfessorName x = String.mk (g1 ++ ' ' :: g2) := by
  simp [normalizeProfessorName, h]

theorem normalize_ne_empty {s : String} (h : s ≠ "") :
    normalizeProfessorName s ≠ "" := by
  cases hf : findMatch s.data with
  | none => rw [normalize_of_none hf]; exact h
  | some r =>
    obtain ⟨g1, g2⟩ := r
    rw [normalize_of_some hf]
    intro hc
    have := congrArg String.data hc
    simp at this

/-- C6: name normalization is a pure deterministic function; it is
idempotent, and on inputs the primary-instructor pattern does not match it
returns the input unchanged. -/
theorem c6_normalize_idempotent (x : String) :
    normalizeProfessorName (normalizeProfessorName x) = normalizeProfessorName x ∧
    (findMatch x.data = none → normalizeProfessorName x = x) := by
  refine ⟨?_, fun h => normalize_of_none h⟩
  cases hf : findMatch x.data with
  | none =>
    rw [normalize_of_none hf]
    exact normalize_of_none hf
  | some r =>
    obtain ⟨g1, g2⟩ := r
    obtain ⟨hg1, hg2, -⟩ := findMatch_spec hf
    rw [normalize_of_some hf]
    have hnp : '(' ∉ (String.mk (g1 ++ ' ' :: g2)).data := by
      intro hmem
      simp only [String.data] at hmem
      rcases List.mem_append.mp hmem with h1 | h2
      · have := hg1 _ h1; simp [isWordDash] at this
      · rcases List.mem_cons.mp h2 with h3 | h4
        · exact absurd h3 (by decide)
        · have := hg2 _ h4; simp [isWordDash] at this
    exact normalize_of_none (findMatch_eq_none hnp)

/-- Witness for C6 at concrete inputs: a matching display name and a
non-matching one. -/
theorem c6_normalize_idempotent_witness :
    normalizeProfessorName (normalizeProfessorName "John A. Smith (Primary)") =
      normalizeProfessorName "John A. Smith (Primary)" ∧
    (findMatch "John Smith".data = none ∧ normalizeProfessorName "John Smith" = "John Smith") :=
  ⟨(c6_normalize_idempotent "John A. Smith (Primary)").1,
   by decide, (c6_normalize_idempotent "John Smith").2 (by decide)⟩

/-! ## Resolver Service claims -/

/-- C9: a successful metrics fetch whose identity token fails to decode
still yields the full metrics object, with `RMPLink` set to `null`. -/
theorem c9_decode_failure_degrades_link_only (atobF : String → Option String)
    (id : String) (n : Background.MetricsNode) (hdec : atobF id = none) :
    Background.getProfessorMetricsWithLink atobF id (.ok (some n)) =
      some ⟨n.avgDifficulty, n.avgRating, n.department, n.numRatings,
            n.wouldTakeAgainPercent, none⟩ := by
  simp [Background.getProfessorMetricsWithLink, Background.getProfessorMetrics,
        Background.getRMPProfessorLink, hdec]

/-- Witness for C9: a concrete failing decoder and metrics node. -/
theorem c9_decode_failure_degrades_link_only_witness :
    ((fun _ : String => (none : Option String)) "badToken" = none) ∧
    Background.getProfessorMetricsWithLink (fun _ => none) "badToken"
        (.ok (some ⟨2, 4, "Mathematics", 7, 90⟩)) =
      some ⟨2, 4, "Mathematics", 7, 90, none⟩ :=
  ⟨rfl, c9_decode_failure_degrades_link_only (fun _ => none) "badToken"
    ⟨2, 4, "Mathematics", 7, 90⟩ rfl⟩

/-- C5: every failure mode inside the Resolver Service — a thrown search
error, a thrown metrics-fetch error, or an empty result list — makes the
listener post `{professorMetrics: null}`, exactly the not-found reply;
errors are never propagated over the Channel. -/
theorem c5_failures_posted_as_null (env : Background.Env) (name : String)
    (hname : name ≠ "") :
    (env.search name = .error () →
      Background.listenerRespond env (some name) = some none) ∧
    (∀ id, Background.getProfessorID (env.search name) = some id →
      env.metricsOf id = .error () →
      Background.listenerRespond env (some name) = some none) ∧
    (env.search name = .ok [] →
      Background.listenerRespond env (some name) = some none) := by
  refine ⟨?_, ?_, ?_⟩
  · intro h
    simp [Background.listenerRespond, hname, Background.getProfessorID, h]
  · intro id hid herr
    simp [Background.listenerRespond, hname, hid,
          Background.getProfessorMetricsWithLink, Background.getProfessorMetrics, herr]
  · intro h
    simp [Background.listenerRespond, hname, Background.getProfessorID, h]

/-- Witness for C5: environments realizing the three failure modes. -/
theorem c5_failures_posted_as_null_witness :
    Background.listenerRespond
      ⟨fun _ => .error (), fun _ => .error (), fun _ => none⟩ (some "John Smith") = some none ∧
    Background.listenerRespond
      ⟨fun _ => .ok [⟨"id1", "John", "Smith"⟩], fun _ => .error (), fun _ => none⟩
      (some "John Smith") = some none ∧
    Background.listenerRespond
      ⟨fun _ => .ok [], fun _ => .error (), fun _ => none⟩ (some "John Smith") = some none :=
  ⟨(c5_failures_posted_as_null _ "John Smith" (by decide)).1 rfl,
   (c5_failures_posted_as_null _ "John Smith" (by decide)).2.1 "id1" rfl rfl,
   (c5_failures_posted_as_null _ "John Smith" (by decide)).2.2 rfl⟩

/-- Counterexample to C1 as stated: the result list is non-empty, the
first candidate's first/last name does not match the queried name's
whitespace-split tokens, yet the Resolver Service returns that
candidate's metrics instead of `null`. -/
theorem c1_counterexample :
    cexEnvC1.search "John Smith" = .ok [⟨"id1", "Jane", "Doe"⟩] ∧
    specNameMatches "John Smith" ⟨"id1", "Jane", "Doe"⟩ = false ∧
    Background.listenerRespond cexEnvC1 (some "John Smith") =
      some (some ⟨2, 4, "Mathematics", 7, 90,
        some "https://www.ratemyprofessors.com/professor/42"⟩) :=
  ⟨rfl, by decide, by decide⟩

/-- C1 (amended): when the search returns a non-empty result list, the
Resolver Service resolves the first candidate unconditionally — even when
the candidate's first/last name does not match the queried name's tokens,
it returns the metrics fetched for that candidate's id, not `null` (no
near-match rejection exists). -/
theorem c1_first_candidate_resolved_despite_mismatch (env : Background.Env)
    (name : String) (e : Background.SearchNode) (es : List Background.SearchNode)
    (hname : name ≠ "") (hsearch : env.search name = .ok (e :: es))
    (hmismatch : specNameMatches name e = false) :
    Background.listenerRespond env (some name) =
      some (Background.getProfessorMetricsWithLink env.atobF e.id (env.metricsOf e.id)) := by
  simp [Background.listenerRespond, hname, Background.getProfessorID, hsearch]

/-- Witness for the amended C1 at the counterexample environment. -/
theorem c1_first_candidate_resolved_despite_mismatch_witness :
    Background.listenerRespond cexEnvC1 (some "John Smith") =
      some (Background.getProfessorMetricsWithLink cexEnvC1.atobF "id1"
        (cexEnvC1.metricsOf "id1")) :=
  c1_first_candidate_resolved_despite_mismatch cexEnvC1 "John Smith"
    ⟨"id1", "Jane", "Doe"⟩ [] (by decide) rfl (by decide)

/-- Counterexample to C2 as stated: with two same-named candidates whose
successful fetches report 5 and 40 ratings, the Resolver Service returns
the first candidate's metrics (numRatings 5), not the second's greater
count — no disambiguation by `numRatings` exists. -/
theorem c2_counterexample :
    cexEnvC2.search "John Smith" =
      .ok [⟨"id1", "John", "Smith"⟩, ⟨"id2", "John", "Smith"⟩] ∧
    Background.getProfessorMetrics (cexEnvC2.metricsOf "id2") =
      some ⟨1, 5, "Statistics", 40, 95, none⟩ ∧
    Background.listenerRespond cexEnvC2 (some "John Smith") =
      some (some ⟨3, 4, "Mathematics", 5, 80, none⟩) :=
  ⟨rfl, by decide, by decide⟩

/-- C2 (amended): when the search returns two or more candidates, the
second candidate is ignored even when its first/last name exactly equals
the first candidate's: only the first candidate's metrics are fetched and
returned, with no comparison of `numRatings`. -/
theorem c2_second_candidate_ignored (env : Background.Env) (name : String)
    (e1 e2 : Background.SearchNode) (es : List Background.SearchNode)
    (hname : name ≠ "") (hsearch : env.search name = .ok (e1 :: e2 :: es))
    (hfn : e2.firstName = e1.firstName) (hln : e2.lastName = e1.lastName) :
    Background.listenerRespond env (some name) =
      some (Background.getProfessorMetricsWithLink env.atobF e1.id (env.metricsOf e1.id)) := by
  simp [Background.listenerRespond, hname, Background.getProfessorID, hsearch]

/-- Witness for the amended C2 at the counterexample environment. -/
theorem c2_second_candidate_ignored_witness :
    Background.listenerRespond cexEnvC2 (some "John Smith") =
      some (Background.getProfessorMetricsWithLink cexEnvC2.atobF "id1"
        (cexEnvC2.metricsOf "id1")) :=
  c2_second_candidate_ignored cexEnvC2 "John Smith"
    ⟨"id1", "John", "Smith"⟩ ⟨"id2", "John", "Smith"⟩ [] (by decide) rfl rfl rfl

/-! ## Cache-map lemmas -/

theorem lookupPM_setPM_self (pm : PMap) (n : String) (v : Option Background.Metrics) :
    lookupPM (setPM pm n v) n = some v := by
  induction pm with
  | nil => simp [setPM, lookupPM]
  | cons kv rest ih =>
    obtain ⟨k, w⟩ := kv
    by_cases h : k = n
    · simp [setPM, lookupPM, h]
    · simp [setPM, lookupPM, h, ih]

theorem lookupPM_setPM_ne (pm : PMap) (n m : String) (v : Option Background.Metrics)
    (h : m ≠ n) : lookupPM (setPM pm m v) n = lookupPM pm n := by
  induction pm with
  | nil => simp [setPM, lookupPM, h]
  | cons kv rest ih =>
    obtain ⟨k, w⟩ := kv
    by_cases hk : k = m
    · subst hk
      simp [setPM, lookupPM, h]
    · by_cases hn : k = n
      · simp [setPM, lookupPM, hk, hn, Ne.symm h]
      · simp [setPM, lookupPM, hk, hn, ih]

/-! ## Rendering lemmas and claims -/

theorem jsTrim_all_space {s : String} (h : jsTrim s = "") :
    ∀ ch ∈ s.data, isSpaceJS ch = true := by
  unfold jsTrim at h
  have hd := congrArg String.data h
  simp only [String.data] at hd
  rw [List.reverse_eq_nil_iff] at hd
  have h2 := List.dropWhile_eq_nil_iff.mp hd
  intro ch hch
  have hsplit : s.data = s.data.takeWhile isSpaceJS ++ s.data.dropWhile isSpaceJS :=
    (List.takeWhile_append_dropWhile _ _).symm
  rw [hsplit] at hch
  rcases List.mem_append.mp hch with hl | hr
  · exact List.mem_takeWhile_imp hl
  · exact h2 ch (List.mem_reverse.mpr hr)

theorem widgetText_createRating_nonspace (v : Option Background.Metrics) :
    ∃ ch ∈ (widgetText (createRatingElement v)).data, isSpaceJS ch = false := by
  cases v with
  | none => exact ⟨'N', by decide, by decide⟩
  | some m =>
    refine ⟨'O', ?_, by decide⟩
    have h0 : 'O' ∈ "Overall: ".data := by decide
    simp [widgetText, createRatingElement, DomNode.textOf, String.data_append,
          List.mem_append, h0]

theorem jsTrim_cellText_widget_ne (t : String) (v : Option Background.Metrics) :
    jsTrim (cellText ⟨t, [createRatingElement v]⟩) ≠ "" := by
  intro h
  have hall := jsTrim_all_space h
  obtain ⟨ch, hch, hns⟩ := widgetText_createRating_nonspace v
  have hmem : ch ∈ (cellText ⟨t, [createRatingElement v]⟩).data := by
    simp [cellText, widgetsText, String.data_append, List.mem_append, hch]
  have := hall ch hmem
  rw [hns] at this
  cases this

/-- Counterexample to C7 as stated: with the cache holding exactly the
entry for `"John Smith"` (a display name the primary-instructor pattern
does not match), the first render pass leaves one widget, but the second
pass reads the cell's `textContent` — now polluted with the widget's text
— as its cache key, finds no entry, and throws after having removed the
widget: two passes do not leave exactly one widget. -/
theorem c7_counterexample :
    renderCellE [("John Smith", none)] ⟨"John Smith", []⟩ =
      .ok ⟨"John Smith", [[DomNode.span "No page found."]]⟩ ∧
    renderCellE [("John Smith", none)] ⟨"John Smith", [[DomNode.span "No page found."]]⟩ =
      .error () := ⟨rfl, rfl⟩

/-- C7 (corrected): one render pass leaves exactly one widget, but the
second pass keys its cache lookup on the cell's `textContent`, which now
includes the widget's text.  Only when that polluted text re-normalizes to
the original key (as for `"First Last (Primary)"` names, where the
pattern re-extracts the same name) is the second pass idempotent, leaving
exactly one widget; when the polluted key has no cache entry — the case
for any display name the pattern does not match — the second pass throws
after removing the widget, leaving none. -/
theorem c7_second_pass_behavior (pm : PMap) (c : Cell) (v : Option Background.Metrics)
    (hn : normalizeProfessorName (jsTrim (cellText c)) ≠ "")
    (hv : lookupPM pm (normalizeProfessorName (jsTrim (cellText c))) = some v)
    (hw : c.widgets.length ≤ 1) :
    ∃ c1, renderCellE pm c = .ok c1 ∧ c1.widgets = [createRatingElement v] ∧
      (normalizeProfessorName (jsTrim (cellText c1)) =
          normalizeProfessorName (jsTrim (cellText c)) →
        renderCellE pm c1 = .ok ⟨c.text, [createRatingElement v]⟩) ∧
      (lookupPM pm (normalizeProfessorName (jsTrim (cellText c1))) = none →
        renderCellE pm c1 = .error ()) := by
  have htail : c.widgets.tail = [] := by
    rcases hww : c.widgets with _ | ⟨a, rest⟩
    · rfl
    · rw [hww] at hw
      simp at hw
      simp [hw]
  refine ⟨⟨c.text, [createRatingElement v]⟩, ?_, rfl, ?_, ?_⟩
  · simp [renderCellE, hn, hv, htail]
  · intro hk
    simp [renderCellE, hk, hn, hv]
  · intro hmiss
    have hne2 : normalizeProfessorName
        (jsTrim (cellText ⟨c.text, [createRatingElement v]⟩)) ≠ "" :=
      normalize_ne_empty (jsTrim_cellText_widget_ne c.text v)
    simp [renderCellE, hne2, hmiss]

/-- Witness for the corrected C7: a `(Primary)` display name whose
polluted second-pass text re-extracts the same key. -/
theorem c7_second_pass_behavior_witness :
    ∃ c1, renderCellE [("John Smith", none)] ⟨"John A. Smith (Primary)", []⟩ = .ok c1 ∧
      c1.widgets = [createRatingElement none] ∧
      (normalizeProfessorName (jsTrim (cellText c1)) =
          normalizeProfessorName (jsTrim (cellText ⟨"John A. Smith (Primary)", []⟩)) →
        renderCellE [("John Smith", none)] c1 =
          .ok ⟨"John A. Smith (Primary)", [createRatingElement none]⟩) ∧
      (lookupPM [("John Smith", none)]
          (normalizeProfessorName (jsTrim (cellText c1))) = none →
        renderCellE [("John Smith", none)] c1 = .error ()) :=
  c7_second_pass_behavior [("John Smith", none)] ⟨"John A. Smith (Primary)", []⟩ none
    (by decide) (by decide) (by decide)

/-- C10: the widget builder special-cases only `null`; a non-empty cell
whose normalized name has no cache entry at all makes the render pass
throw, so the render step is safe exactly under the precondition that
every non-empty cell's name is cached. -/
theorem c10_missing_entry_throws (pm : PMap) (c : Cell)
    (hn : normalizeProfessorName (jsTrim (cellText c)) ≠ "")
    (hmiss : lookupPM pm (normalizeProfessorName (jsTrim (cellText c))) = none) :
    renderCellE pm c = .error () ∧
    ∀ (pm2 : PMap) (doc : List Cell),
      (∀ c2 ∈ doc, normalizeProfessorName (jsTrim (cellText c2)) ≠ "" →
        (lookupPM pm2 (normalizeProfessorName (jsTrim (cellText c2)))).isSome = true) →
      ∃ doc2, renderPassE pm2 doc = .ok doc2 := by
  constructor
  · simp [renderCellE, hn, hmiss]
  · intro pm2 doc h
    induction doc with
    | nil => exact ⟨[], rfl⟩
    | cons c2 cs ih =>
      obtain ⟨doc2, hdoc2⟩ := ih (fun x hx => h x (List.mem_cons_of_mem _ hx))
      have hcell : ∃ cc, renderCellE pm2 c2 = .ok cc := by
        by_cases he : normalizeProfessorName (jsTrim (cellText c2)) = ""
        · exact ⟨⟨c2.text, c2.widgets.tail⟩, by simp [renderCellE, he]⟩
        · obtain ⟨v, hv⟩ := Option.isSome_iff_exists.mp (h c2 (List.mem_cons_self _ _) he)
          exact ⟨⟨c2.text, c2.widgets.tail ++ [createRatingElement v]⟩,
            by simp [renderCellE, he, hv]⟩
      obtain ⟨cc, hcc⟩ := hcell
      exact ⟨cc :: doc2, by simp [renderPassE, hcc, hdoc2]⟩

/-- Witness for C10: empty cache, non-empty cell; and a safe document for
the guarded part. -/
theorem c10_missing_entry_throws_witness :
    renderCellE [] ⟨"John Smith (Primary)", []⟩ = .error () ∧
    ∀ (pm2 : PMap) (doc : List Cell),
      (∀ c2 ∈ doc, normalizeProfessorName (jsTrim (cellText c2)) ≠ "" →
        (lookupPM pm2 (normalizeProfessorName (jsTrim (cellText c2)))).isSome = true) →
      ∃ doc2, renderPassE pm2 doc = .ok doc2 :=
  c10_missing_entry_throws [] ⟨"John Smith (Primary)", []⟩ (by decide) (by decide)

/-- C8: end to end, a zero-result search makes the Resolver Service post
`null`, the Harvester caches `null` for the normalized name, and the cell
is rendered with a single widget containing only `"No page found."`. -/
theorem c8_zero_results_renders_no_page (env : Background.Env) (t : String) (pm : PMap)
    (h0 : jsTrim t ≠ "")
    (hmiss : hasPM pm (normalizeProfessorName (jsTrim t)) = false)
    (hsearch : env.search (normalizeProfessorName (jsTrim t)) = .ok []) :
    envOfListener env (normalizeProfessorName (jsTrim t)) = .failure ∧
    processTables (envOfListener env) [t] 0 pm =
      (setPM pm (normalizeProfessorName (jsTrim t)) none,
       [Ev.request (normalizeProfessorName (jsTrim t))], false) ∧
    renderCellE (setPM pm (normalizeProfessorName (jsTrim t)) none) ⟨t, []⟩ =
      .ok ⟨t, [[DomNode.span "No page found."]]⟩ := by
  have hne := normalize_ne_empty h0
  have hfail : envOfListener env (normalizeProfessorName (jsTrim t)) = .failure := by
    simp [envOfListener, Background.listenerRespond, hne, Background.getProfessorID,
          hsearch, channelOutcome]
  refine ⟨hfail, ?_, ?_⟩
  · have hinner : innerLoop (envOfListener env) [t] pm =
        .done (setPM pm (normalizeProfessorName (jsTrim t)) none)
              [Ev.request (normalizeProfessorName (jsTrim t))] := by
      simp [innerLoop, h0, hmiss, hfail, InnerRes.consEv]
    simp [processTables, hinner]
  · simp [renderCellE, cellText, widgetsText, String.append_empty, hne,
          lookupPM_setPM_self, createRatingElement]

/-- Witness for C8: concrete environment with an empty result list. -/
theorem c8_zero_results_renders_no_page_witness :
    envOfListener ⟨fun _ => .ok [], fun _ => .error (), fun _ => none⟩
      (normalizeProfessorName (jsTrim "John Smith (Primary)")) = .failure ∧
    processTables (envOfListener ⟨fun _ => .ok [], fun _ => .error (), fun _ => none⟩)
      ["John Smith (Primary)"] 0 [] =
      (setPM [] (normalizeProfessorName (jsTrim "John Smith (Primary)")) none,
       [Ev.request (normalizeProfessorName (jsTrim "John Smith (Primary)"))], false) ∧
    renderCellE (setPM [] (normalizeProfessorName (jsTrim "John Smith (Primary)")) none)
      ⟨"John Smith (Primary)", []⟩ =
      .ok ⟨"John Smith (Primary)", [[DomNode.span "No page found."]]⟩ :=
  c8_zero_results_renders_no_page ⟨fun _ => .ok [], fun _ => .error (), fun _ => none⟩
    "John Smith (Primary)" [] (by decide) rfl rfl

/-! ## Harvester scan lemmas -/

theorem pmOf_consEv (e : Ev) (r : InnerRes) : (r.consEv e).pmOf = r.pmOf := by
  cases r <;> rfl

theorem evsOf_consEv (e : Ev) (r : InnerRes) : (r.consEv e).evsOf = e :: r.evsOf := by
  cases r <;> rfl

theorem innerLoop_pres (env : String → CallOutcome) (tables : List String)
    (pm : PMap) (n : String) (h : hasPM pm n = true) :
    lookupPM (innerLoop env tables pm).pmOf n = lookupPM pm n ∧
    Ev.request n ∉ (innerLoop env tables pm).evsOf := by
  induction tables generalizing pm with
  | nil => simp [innerLoop, InnerRes.pmOf, InnerRes.evsOf]
  | cons t ts ih =>
    by_cases h0 : jsTrim t = ""
    · simpa [innerLoop, h0] using ih pm h
    · by_cases hh : hasPM pm (normalizeProfessorName (jsTrim t)) = true
      · simpa [innerLoop, h0, hh] using ih pm h
      · have hne : normalizeProfessorName (jsTrim t) ≠ n := by
          intro he
          rw [he] at hh
          exact hh h
        have hh' : hasPM pm (normalizeProfessorName (jsTrim t)) = false := by
          simpa using hh
        cases henv : env (normalizeProfessorName (jsTrim t)) with
        | success mm =>
          have hpm : hasPM (setPM pm (normalizeProfessorName (jsTrim t)) (some mm)) n = true := by
            unfold hasPM
            rw [lookupPM_setPM_ne pm n _ _ hne]
            exact h
          obtain ⟨ih1, ih2⟩ := ih _ hpm
          rw [lookupPM_setPM_ne pm n _ _ hne] at ih1
          have hstep : innerLoop env (t :: ts) pm =
              (innerLoop env ts (setPM pm (normalizeProfessorName (jsTrim t)) (some mm))).consEv
                (.request (normalizeProfessorName (jsTrim t))) := by
            simp [innerLoop, h0, hh', henv]
          rw [hstep, pmOf_consEv, evsOf_consEv]
          exact ⟨ih1, by simp [List.mem_cons, Ne.symm hne, ih2]⟩
        | failure =>
          have hpm : hasPM (setPM pm (normalizeProfessorName (jsTrim t)) none) n = true := by
            unfold hasPM
            rw [lookupPM_setPM_ne pm n _ _ hne]
            exact h
          obtain ⟨ih1, ih2⟩ := ih _ hpm
          rw [lookupPM_setPM_ne pm n _ _ hne] at ih1
          have hstep : innerLoop env (t :: ts) pm =
              (innerLoop env ts (setPM pm (normalizeProfessorName (jsTrim t)) none)).consEv
                (.request (normalizeProfessorName (jsTrim t))) := by
            simp [innerLoop, h0, hh', henv]
          rw [hstep, pmOf_consEv, evsOf_consEv]
          exact ⟨ih1, by simp [List.mem_cons, Ne.symm hne, ih2]⟩
        | ctxInvalid =>
          simp [innerLoop, h0, hh', henv, InnerRes.pmOf, InnerRes.evsOf, Ne.symm hne]
        | portDisc =>
          simp [innerLoop, h0, hh', henv, InnerRes.pmOf, InnerRes.evsOf, Ne.symm hne]

theorem processTables_pres (env : String → CallOutcome) (tables : List String)
    (retryCount : Nat) (pm : PMap) (n : String) (h : hasPM pm n = true) :
    lookupPM (processTables env tables retryCount pm).1 n = lookupPM pm n ∧
    Ev.request n ∉ (processTables env tables retryCount pm).2.1 := by
  have key : ∀ rc pmx, hasPM pmx n = true →
      lookupPM (processTables env tables rc pmx).1 n = lookupPM pmx n ∧
      Ev.request n ∉ (processTables env tables rc pmx).2.1 := by
    intro rc pmx
    induction rc, pmx using processTables.induct env tables with
    | case1 rc pmx pm2 evs heq =>
      intro hx
      obtain ⟨h1, h2⟩ := innerLoop_pres env tables pmx n hx
      rw [heq] at h1 h2
      rw [processTables, heq]
      exact ⟨h1, h2⟩
    | case2 rc pmx pm2 evs heq =>
      intro hx
      obtain ⟨h1, h2⟩ := innerLoop_pres env tables pmx n hx
      rw [heq] at h1 h2
      rw [processTables, heq]
      exact ⟨h1, h2⟩
    | case3 rc pmx pm2 evs heq hle =>
      intro hx
      obtain ⟨h1, h2⟩ := innerLoop_pres env tables pmx n hx
      rw [heq] at h1 h2
      simp only [InnerRes.pmOf, InnerRes.evsOf] at h1 h2
      rw [processTables, heq]
      simp only [if_pos hle]
      refine ⟨h1, ?_⟩
      simp [List.mem_append, h2]
    | case4 rc pmx pm2 evs heq hle ih =>
      intro hx
      obtain ⟨h1, h2⟩ := innerLoop_pres env tables pmx n hx
      rw [heq] at h1 h2
      simp only [InnerRes.pmOf, InnerRes.evsOf] at h1 h2
      have hpm2 : hasPM pm2 n = true := by
        unfold hasPM
        rw [h1]
        exact hx
      obtain ⟨ih1, ih2⟩ := ih hpm2
      rw [processTables, heq]
      simp only [if_neg hle]
      constructor
      · show lookupPM (processTables env tables (rc + 1) pm2).1 n = lookupPM pmx n
        rw [ih1, h1]
      · show Ev.request n ∉ evs ++ Ev.reconnect :: (processTables env tables (rc + 1) pm2).2.1
        simp [List.mem_append, List.mem_cons, h2, ih2]
  exact key retryCount pm h

/-- C3: cache monotonicity across a whole session: once a normalized name
has a `profMap` entry (metrics or `null`), no later scan ever issues a
resolution request for it, and its entry is never changed. -/
theorem c3_cache_monotone (env : String → CallOutcome) (scans : List (List String))
    (pm : PMap) (n : String) (h : hasPM pm n = true) :
    lookupPM (runScans env scans pm).1 n = lookupPM pm n ∧
    Ev.request n ∉ (runScans env scans pm).2 := by
  induction scans generalizing pm with
  | nil => simp [runScans]
  | cons ts rest ih =>
    obtain ⟨h1, h2⟩ := processTables_pres env ts 0 pm n h
    have hh : hasPM (processTables env ts 0 pm).1 n = true := by
      unfold hasPM
      rw [h1]
      exact h
    obtain ⟨ih1, ih2⟩ := ih _ hh
    constructor
    · simp only [runScans]
      rw [ih1, h1]
    · simp only [runScans, List.mem_append]
      rintro (hc | hc)
      · exact h2 hc
      · exact ih2 hc

/-- Witness for C3: a cached name is left untouched and never re-requested
by a later scan of the same display name. -/
theorem c3_cache_monotone_witness :
    hasPM [("John Smith", none)] "John Smith" = true ∧
    (lookupPM (runScans (fun _ => CallOutcome.failure) [["John Smith (Primary)"]]
        [("John Smith", none)]).1 "John Smith" =
      lookupPM [("John Smith", none)] "John Smith" ∧
    Ev.request "John Smith" ∉
      (runScans (fun _ => CallOutcome.failure) [["John Smith (Primary)"]]
        [("John Smith", none)]).2) :=
  ⟨by decide,
   c3_cache_monotone (fun _ => CallOutcome.failure) [["John Smith (Primary)"]]
     [("John Smith", none)] "John Smith" (by decide)⟩

theorem innerLoop_constDisc (tables : List String) (pm : PMap)
    (h : ∃ t ∈ tables, requestable pm t) :
    ∃ n, innerLoop (fun _ => CallOutcome.portDisc) tables pm = .disc pm [Ev.request n] := by
  induction tables with
  | nil =>
    obtain ⟨t, ht, -⟩ := h
    cases ht
  | cons t ts ih =>
    by_cases h0 : jsTrim t = ""
    · have hts : ∃ u ∈ ts, requestable pm u := by
        obtain ⟨u, hu, hr⟩ := h
        rcases List.mem_cons.mp hu with rfl | hmem
        · exact absurd h0 hr.1
        · exact ⟨u, hmem, hr⟩
      obtain ⟨n, hn⟩ := ih hts
      refine ⟨n, ?_⟩
      rw [innerLoop, if_pos h0]
      exact hn
    · by_cases hh : hasPM pm (normalizeProfessorName (jsTrim t)) = true
      · have hts : ∃ u ∈ ts, requestable pm u := by
          obtain ⟨u, hu, hr⟩ := h
          rcases List.mem_cons.mp hu with rfl | hmem
          · rw [hr.2] at hh
            cases hh
          · exact ⟨u, hmem, hr⟩
        obtain ⟨n, hn⟩ := ih hts
        refine ⟨n, ?_⟩
        rw [innerLoop, if_neg h0]
        simpa [hh] using hn
      · refine ⟨normalizeProfessorName (jsTrim t), ?_⟩
        rw [innerLoop, if_neg h0]
        have hh' : hasPM pm (normalizeProfessorName (jsTrim t)) = false := by
          simpa using hh
        simp [hh']

/-- C4: a request whose channel call fails with a disconnected-port error
on every attempt causes exactly 3 port re-creations, each followed by a
retry of the same request; the 4th consecutive failure hits the retry
ceiling and triggers a full page reload (and the cache is unchanged). -/
theorem c4_retry_ceiling (tables : List String) (pm : PMap)
    (h : ∃ t ∈ tables, requestable pm t) :
    ∃ n, processTables (fun _ => CallOutcome.portDisc) tables 0 pm =
      (pm, [Ev.request n, Ev.reconnect, Ev.request n, Ev.reconnect, Ev.request n,
            Ev.reconnect, Ev.request n, Ev.reload], true) ∧
      List.count Ev.reconnect [Ev.request n, Ev.reconnect, Ev.request n, Ev.reconnect,
        Ev.request n, Ev.reconnect, Ev.request n, Ev.reload] = 3 := by
  obtain ⟨n, hinner⟩ := innerLoop_constDisc tables pm h
  have h3 : processTables (fun _ => CallOutcome.portDisc) tables 3 pm =
      (pm, [Ev.request n, Ev.reload], true) := by
    rw [processTables, hinner]
    simp [MAX_RETRIES]
  have h2 : processTables (fun _ => CallOutcome.portDisc) tables 2 pm =
      (pm, [Ev.request n, Ev.reconnect, Ev.request n, Ev.reload], true) := by
    rw [processTables, hinner]
    simp [MAX_RETRIES, h3]
  have h1 : processTables (fun _ => CallOutcome.portDisc) tables 1 pm =
      (pm, [Ev.request n, Ev.reconnect, Ev.request n, Ev.reconnect, Ev.request n,
            Ev.reload], true) := by
    rw [processTables, hinner]
    simp [MAX_RETRIES, h2]
  refine ⟨n, ?_, ?_⟩
  · rw [processTables, hinner]
    simp [MAX_RETRIES, h1]
  · simp [List.count_cons]

/-- Witness for C4: a single-cell scan against an always-disconnected
port. -/
theorem c4_retry_ceiling_witness :
    ∃ n, processTables (fun _ => CallOutcome.portDisc) ["John Smith (Primary)"] 0 [] =
      ([], [Ev.request n, Ev.reconnect, Ev.request n, Ev.reconnect, Ev.request n,
            Ev.reconnect, Ev.request n, Ev.reload], true) ∧
      List.count Ev.reconnect [Ev.request n, Ev.reconnect, Ev.request n, Ev.reconnect,
        Ev.request n, Ev.reconnect, Ev.request n, Ev.reload] = 3 :=
  c4_retry_ceiling ["John Smith (Primary)"] []
    ⟨"John Smith (Primary)", by decide, by decide, by decide⟩

end UGARMP
